import Mathlib

/-!
Verification of the image-service request handler (`src/app.py`).

The module is a shallow embedding of the handler: JSON values, the inbound
event shape, the two external collaborators (object store, record store),
and the four operations `create_image`, `list_images`, `get_image`,
`delete_image` plus the router `lambda_handler`, translated from the Python
source.  Python exceptions that the source does not catch are modelled as a
`fault` outcome; caught exceptions follow the source's handlers.
-/

set_option autoImplicit false

namespace ImageService

/-- JSON values, the payloads `json.loads` can produce and the handler
serialises with `json.dumps`.  Numbers are modelled as integers (the only
numeric values the handler itself produces or compares). -/
inductive JValue where
  | null
  | bool (b : Bool)
  | num (n : Int)
  | str (s : String)
  | arr (xs : List JValue)
  | obj (fields : List (String × JValue))
  deriving Repr

mutual
/-- Structural equality on `JValue` (Python `==` restricted to the
string-versus-value comparisons the handler performs). -/
def jbeq : JValue → JValue → Bool
  | .null, .null => true
  | .bool a, .bool b => a == b
  | .num a, .num b => a == b
  | .str a, .str b => a == b
  | .arr xs, .arr ys => jbeqList xs ys
  | .obj fs, .obj gs => jbeqFields fs gs
  | _, _ => false

def jbeqList : List JValue → List JValue → Bool
  | [], [] => true
  | x :: xs, y :: ys => jbeq x y && jbeqList xs ys
  | _, _ => false

def jbeqFields : List (String × JValue) → List (String × JValue) → Bool
  | [], [] => true
  | kv :: kvs, lw :: lws => kv.1 == lw.1 && jbeq kv.2 lw.2 && jbeqFields kvs lws
  | _, _ => false
end

instance : BEq JValue := ⟨jbeq⟩

mutual
theorem jbeq_iff : ∀ a b : JValue, jbeq a b = true ↔ a = b
  | .null, b => by cases b <;> simp [jbeq]
  | .bool a, b => by cases b <;> simp [jbeq]
  | .num a, b => by cases b <;> simp [jbeq]
  | .str a, b => by cases b <;> simp [jbeq]
  | .arr xs, b => by
      cases b <;> simp [jbeq]
      exact jbeqList_iff xs _
  | .obj fs, b => by
      cases b <;> simp [jbeq]
      exact jbeqFields_iff fs _

theorem jbeqList_iff : ∀ xs ys : List JValue, jbeqList xs ys = true ↔ xs = ys
  | [], ys => by cases ys <;> simp [jbeqList]
  | x :: xs, ys => by
      cases ys with
      | nil => simp [jbeqList]
      | cons y ys => simp [jbeqList, jbeq_iff x y, jbeqList_iff xs ys]

theorem jbeqFields_iff :
    ∀ fs gs : List (String × JValue), jbeqFields fs gs = true ↔ fs = gs
  | [], gs => by cases gs <;> simp [jbeqFields]
  | kv :: kvs, gs => by
      cases gs with
      | nil => simp [jbeqFields]
      | cons lw lws =>
          cases kv; cases lw
          simp [jbeqFields, jbeq_iff, jbeqFields_iff kvs lws, and_assoc]
end

instance : LawfulBEq JValue where
  eq_of_beq h := (jbeq_iff _ _).mp h
  rfl := by intro a; exact (jbeq_iff a a).mpr rfl

instance : DecidableEq JValue := fun a b =>
  decidable_of_iff (jbeq a b = true) (jbeq_iff a b)

/-- Python truthiness (`bool(x)`) on JSON-representable values:
`None`, `False`, `0`, the empty string, list or dict are falsy. -/
def truthy : JValue → Bool
  | .null => false
  | .bool b => b
  | .num n => n != 0
  | .str s => !s.isEmpty
  | .arr xs => !xs.isEmpty
  | .obj fs => !fs.isEmpty

/-- Truthiness of `dict.get(k)`: `None` (missing key) is falsy. -/
def truthyO : Option JValue → Bool
  | none => false
  | some v => truthy v

/-- Truthiness of an optional query-string value (`None` or `""` falsy). -/
def truthyS (o : Option String) : Bool :=
  !(o.getD "").isEmpty

mutual
/-- Python `str(x)` for JSON-representable values, as used by the f-string
that builds the storage key.  Containers render their elements with `repr`;
the quoting of special characters inside nested strings is not modelled
(no claim formats a container). -/
def pyStr : JValue → String
  | .null => "None"
  | .bool b => if b then "True" else "False"
  | .num n => toString n
  | .str s => s
  | .arr xs => "[" ++ pyReprList xs ++ "]"
  | .obj fs => "\x7b" ++ pyReprFields fs ++ "\x7d"

/-- Python `repr(x)` for JSON-representable values (strings quoted). -/
def pyRepr : JValue → String
  | .str s => "\x27" ++ s ++ "\x27"
  | .null => "None"
  | .bool b => if b then "True" else "False"
  | .num n => toString n
  | .arr xs => "[" ++ pyReprList xs ++ "]"
  | .obj fs => "\x7b" ++ pyReprFields fs ++ "\x7d"

def pyReprList : List JValue → String
  | [] => ""
  | [x] => pyRepr x
  | x :: xs => pyRepr x ++ ", " ++ pyReprList xs

def pyReprFields : List (String × JValue) → String
  | [] => ""
  | [kv] => "\x27" ++ kv.1 ++ "\x27: " ++ pyRepr kv.2
  | kv :: kvs => "\x27" ++ kv.1 ++ "\x27: " ++ pyRepr kv.2 ++ ", " ++ pyReprFields kvs
end

/-- Rendering `str(dict.get(k))` fed into the f-string (missing key gives
Python `None`). -/
def pyStrO : Option JValue → String
  | none => "None"
  | some v => pyStr v

/-- Python `dict.get(k)` on a parsed JSON object.  JSON objects produced by
`json.loads` have distinct keys; lookup returns the first match. -/
def jLookup (fields : List (String × JValue)) (k : String) : Option JValue :=
  (fields.find? (fun kv => kv.1 == k)).map (·.2)

/-- Python `dict.get(k)` on query/path parameter dictionaries (string values). -/
def qLookup (qs : List (String × String)) (k : String) : Option String :=
  (qs.find? (fun kv => kv.1 == k)).map (·.2)

/-- Python `dict.get(k, d)` with a string default. -/
def qGetD (qs : List (String × String)) (k d : String) : String :=
  (qLookup qs k).getD d

/-- Digit run of Python `int(str)`: decimal digits with single underscores
allowed between digits (CPython's base-10 literal grammar; non-ASCII
digits are not modelled). -/
def pyDigitsGo (acc : Nat) : List Char → Option Nat
  | [] => some acc
  | '_' :: c :: cs =>
      if c.isDigit then pyDigitsGo (acc * 10 + (c.toNat - '0'.toNat)) cs else none
  | ['_'] => none
  | c :: cs =>
      if c.isDigit then pyDigitsGo (acc * 10 + (c.toNat - '0'.toNat)) cs else none

/-- A non-empty digit run that must start with a digit. -/
def pyDigits : List Char → Option Nat
  | [] => none
  | c :: cs =>
      if c.isDigit then pyDigitsGo (c.toNat - '0'.toNat) cs else none

/-- Whitespace characters Python `int(str)` strips (the ASCII ones). -/
def pyWs (c : Char) : Bool :=
  c == ' ' || c == '\t' || c == '\n' || c == '\r' || c == '\x0B' || c == '\x0C'

/-- Strip of leading and trailing whitespace. -/
def pyStrip (l : List Char) : List Char :=
  ((l.dropWhile pyWs).reverse.dropWhile pyWs).reverse

/-- Python `int(s)` in base 10: surrounding whitespace stripped, optional
single sign, then digits; `none` models the `ValueError` raised on any
other shape (in particular on the empty string). -/
def pyInt (s : String) : Option Int :=
  match pyStrip s.toList with
  | '+' :: cs => (pyDigits cs).map Int.ofNat
  | '-' :: cs => (pyDigits cs).map (fun n => -(n : Int))
  | cs => (pyDigits cs).map Int.ofNat

/-- Value of a hexadecimal digit, if any. -/
def hexVal (c : Char) : Option Nat :=
  if c.isDigit then some (c.toNat - '0'.toNat)
  else if 'a' ≤ c ∧ c ≤ 'f' then some (c.toNat - 'a'.toNat + 10)
  else if 'A' ≤ c ∧ c ≤ 'F' then some (c.toNat - 'A'.toNat + 10)
  else none

/-- Model of `urllib.parse.unquote_plus` on the extracted path segment: `+` becomes a
space and `%XX` hex escapes decode to the character of that byte value
(multi-byte UTF-8 sequences are not recombined; no claim depends on the
decoded spelling). -/
def unquoteChars : List Char → List Char
  | [] => []
  | '+' :: rest => ' ' :: unquoteChars rest
  | '%' :: a :: b :: rest =>
      match hexVal a, hexVal b with
      | some ha, some hb => Char.ofNat (16 * ha + hb) :: unquoteChars rest
      | _, _ => '%' :: unquoteChars (a :: b :: rest)
  | c :: rest => c :: unquoteChars rest

def unquote_plus (s : String) : String :=
  String.mk (unquoteChars s.toList)

/-- Whether `p` is a leading segment of `l`. -/
def leadsChars : List Char → List Char → Bool
  | [], _ => true
  | _ :: _, [] => false
  | a :: as, b :: bs => a == b && leadsChars as bs

/-- Whether `needle` occurs contiguously inside `hay`. -/
def hasSubstr (needle : List Char) : List Char → Bool
  | [] => leadsChars needle []
  | c :: t => leadsChars needle (c :: t) || hasSubstr needle t

/-- Python `needle in hay` on strings (substring test). -/
def strContains (hay needle : String) : Bool :=
  hasSubstr needle.toList hay.toList

/-- Python `s.endswith(suffix)`. -/
def strEndsWith (s suffix : String) : Bool :=
  leadsChars suffix.toList.reverse s.toList.reverse

/-- Last piece of Python `l.split(c0 :: sep)`: the scan runs left to
right over non-overlapping separator occurrences and the piece after the
final one is returned (the whole input when the separator is absent). -/
def lastPiece (c0 : Char) (sep : List Char) (l : List Char) : List Char :=
  match l with
  | [] => []
  | c :: rest =>
      if leadsChars (c0 :: sep) (c :: rest) then
        lastPiece c0 sep (List.drop sep.length rest)
      else if hasSubstr (c0 :: sep) rest then lastPiece c0 sep rest
      else c :: rest
termination_by l.length
decreasing_by
  all_goals simp [List.length_drop]
  all_goals omega

/-- The request body as `create_image` consumes it.  `absent` covers a
missing or falsy (`None` or empty) body, for which the source parses the
empty-object text;
`invalid` is a truthy string on which `json.loads` raises
`JSONDecodeError`; `val v` is a truthy string parsing to `v`. -/
inductive BodyRep where
  | absent
  | invalid
  | val (v : JValue)
  deriving DecidableEq, Repr

/-- Parsing of `json.loads(event.get("body") or "\x7b\x7d")`, with `error` the caught
`JSONDecodeError`. -/
def parsedPayload : BodyRep → Except Unit JValue
  | .absent => .ok (.obj [])
  | .invalid => .error ()
  | .val v => .ok v

/-- The normalized API-Gateway proxy event.  `path` carries the default
`""` that `event.get("path", "")` applies; the query and path parameter
dictionaries may be `None`. -/
structure Event where
  httpMethod : Option String
  path : String
  queryStringParameters : Option (List (String × String))
  pathParameters : Option (List (String × String))
  body : BodyRep
  /-- Accepted but unused: the base64 branch of the source is a no-op. -/
  isBase64Encoded : Bool
  deriving DecidableEq, Repr

/-- A record of the DynamoDB table.  Every item is written by
`create_image`, so `image_id`, `s3_key` are strings and `created_at` an
integer; the client-supplied fields keep their JSON shape. -/
structure Item where
  image_id : String
  user_id : JValue
  s3_key : String
  filename : JValue
  content_type : JValue
  tags : JValue
  description : JValue
  created_at : Int
  deriving DecidableEq, Repr

/-- The item's fields in the insertion order of the source dict, as
`json.dumps` serialises them. -/
def itemFields (it : Item) : List (String × JValue) :=
  [("image_id", .str it.image_id),
   ("user_id", it.user_id),
   ("s3_key", .str it.s3_key),
   ("filename", it.filename),
   ("content_type", it.content_type),
   ("tags", it.tags),
   ("description", it.description),
   ("created_at", .num it.created_at)]

/-- One call made to the object-store client, logged for effect claims. -/
inductive S3Call where
  | presignPut (key : String) (contentType : JValue)
  | presignGet (key : String)
  | deleteObject (key : String)
  deriving DecidableEq, Repr

/-- External world state threaded through the handler: the DynamoDB table
(primary key `image_id`) and the log of object-store calls issued. -/
structure St where
  table : List Item
  calls : List S3Call
  deriving DecidableEq, Repr

/-- Responses of the object-store client.  The bucket name is fixed at
module initialization and absorbed into these functions; `Except.error`
models the exception a call can raise. -/
structure Ctx where
  /-- Value of `str(uuid.uuid4())` for this invocation. -/
  freshId : String
  /-- Value of `int(time.time())` for this invocation. -/
  now : Int
  /-- Call of `generate_presigned_url("put_object", ...)` on key and content type. -/
  presignPut : String → JValue → Except String String
  /-- Call of `generate_presigned_url("get_object", ...)` on a key. -/
  presignGet : String → Except String String
  /-- Call of `delete_object` on a key. -/
  deleteObj : String → Except String Unit

/-- An HTTP-like response before JSON serialization of the body. -/
structure HResp where
  statusCode : Int
  body : JValue
  deriving DecidableEq, Repr

/-- Helper `response(status_code, body)` from the source (the constant
`Content-Type: application/json` header is implicit). -/
def response (statusCode : Int) (body : JValue) : HResp :=
  { statusCode := statusCode, body := body }

/-- Result of one handler invocation: a normalized response, or an
exception the source leaves uncaught (a raw fault of the runtime). -/
inductive Outcome where
  | resp (r : HResp)
  | fault (e : String)
  deriving DecidableEq, Repr

/-- DynamoDB `table.put_item(Item=it)`: inserts, overwriting any item with the same
primary key. -/
def putItem (tbl : List Item) (it : Item) : List Item :=
  it :: tbl.filter (fun j => !(j.image_id == it.image_id))

/-- DynamoDB `table.get_item(Key=...)`: the item with this primary key, if any. -/
def getItem (tbl : List Item) (id : String) : Option Item :=
  tbl.find? (fun j => j.image_id == id)

/-- DynamoDB `table.delete_item(Key=...)`: removes the item with this key. -/
def deleteItem (tbl : List Item) (id : String) : List Item :=
  tbl.filter (fun j => !(j.image_id == id))

/-- DynamoDB `table.scan(Limit=limit)`: up to `limit` records, order owned by the
record store (modelled as table order). -/
def scanTable (tbl : List Item) (limit : Int) : List Item :=
  tbl.take limit.toNat

/-- DynamoDB `table.query` on the `UserIndex` secondary index with
`user_id = u` and `Limit=limit`. -/
def queryUser (tbl : List Item) (u : String) (limit : Int) : List Item :=
  (tbl.filter (fun j => j.user_id == JValue.str u)).take limit.toNat

/-- Operation `create_image(event)` of the source.  A body that parses to a
JSON value other than an object makes `payload.get` raise an uncaught
`AttributeError`; a failing presigned-URL call (outside any `try`) is also
an uncaught fault. -/
def create_image (ctx : Ctx) (st : St) (ev : Event) : Outcome × St :=
  match parsedPayload ev.body with
  | .error _ =>
      (.resp (response 400 (.obj [("message", .str "Invalid JSON")])), st)
  | .ok payload =>
    match payload with
    | .obj pfields =>
        let user_id := jLookup pfields "user_id"
        let filename := jLookup pfields "filename"
        let content_type := (jLookup pfields "content_type").getD
          (.str "application/octet-stream")
        let tags := (jLookup pfields "tags").getD (.arr [])
        let description := (jLookup pfields "description").getD (.str "")
        if !truthyO user_id || !truthyO filename then
          (.resp (response 400
            (.obj [("message", .str "user_id and filename are required")])), st)
        else
          let image_id := ctx.freshId
          let key := pyStrO user_id ++ "/" ++ image_id ++ "/" ++ pyStrO filename
          let item : Item :=
            { image_id := image_id
              -- truthiness above guarantees the lookups are `some`
              user_id := user_id.getD .null
              s3_key := key
              filename := filename.getD .null
              content_type := content_type
              tags := tags
              description := description
              created_at := ctx.now }
          let st1 : St :=
            { table := putItem st.table item
              calls := st.calls ++ [S3Call.presignPut key content_type] }
          match ctx.presignPut key content_type with
          | .error e => (.fault e, st1)
          | .ok put_url =>
              (.resp (response 201
                (.obj [("image_id", .str image_id),
                       ("upload_url", .str put_url),
                       ("s3_key", .str key)])), st1)
    | _ => (.fault "AttributeError", st)

/-- Python `tag in (item.get("tags") or [])`: membership in a list, key
test in a dict, substring test in a string; on a truthy number or boolean
the `in` operator raises `TypeError` (uncaught in the source). -/
def pyInTags (t : String) (tags : JValue) : Except String Bool :=
  if !truthy tags then .ok false
  else match tags with
    | .arr xs => .ok (xs.any (fun x => x == JValue.str t))
    | .str s => .ok (strContains s t)
    | .obj fs => .ok (fs.any (fun kv => kv.1 == t))
    | _ => .error "TypeError: argument of type is not iterable"

/-- The tag list comprehension, left to right, the first exception
aborting the whole request. -/
def filterTagM (t : String) : List Item → Except String (List Item)
  | [] => .ok []
  | i :: is =>
      match pyInTags t i.tags with
      | .error e => .error e
      | .ok b =>
        match filterTagM t is with
        | .error e => .error e
        | .ok rest => .ok (if b then i :: rest else rest)

/-- Predicate `in_range(i)` of the source: the bound checks are guarded by
Python truthiness of `fts`/`tts`, so `None` and `0` both disable a bound. -/
def in_range (fts tts : Option Int) (i : Item) : Bool :=
  if fts.getD 0 != 0 && i.created_at < fts.getD 0 then false
  else if tts.getD 0 != 0 && i.created_at > tts.getD 0 then false
  else true

/-- Evaluation of `int(x) if x else None` for a timestamp query parameter:
`none` models the `ValueError`, `some fts` the computed bound. -/
def tsArg (o : Option String) : Option (Option Int) :=
  if truthyS o then (pyInt (o.getD "")).map Option.some else some none

/-- Retrieval step of `list_images`: query the owner index when `user_id`
is truthy, otherwise scan, both capped at `limit` before any filter. -/
def fetchItems (tbl : List Item) (qs : List (String × String)) (limit : Int) :
    List Item :=
  if truthyS (qLookup qs "user_id") then
    queryUser tbl ((qLookup qs "user_id").getD "") limit
  else scanTable tbl limit

/-- Per-item presigned GET URL: `None` on an exception (caught). -/
def attachUrl (ctx : Ctx) (i : Item) : Item × Option String :=
  match ctx.presignGet i.s3_key with
  | .ok url => (i, some url)
  | .error _ => (i, none)

/-- Serialization of a listed item: its fields plus `download_url`. -/
def listedJ : Item × Option String → JValue
  | (i, some url) => .obj (itemFields i ++ [("download_url", .str url)])
  | (i, none) => .obj (itemFields i ++ [("download_url", .null)])

/-- Body of the 200 list response for the surviving items. -/
def itemsBody (ctx : Ctx) (items : List Item) : JValue :=
  .obj [("items", .arr (items.map (fun i => listedJ (attachUrl ctx i))))]

/-- Operation `list_images(event)` of the source. -/
def list_images (ctx : Ctx) (st : St) (ev : Event) : Outcome × St :=
  let qs := ev.queryStringParameters.getD []
  let tag := qLookup qs "tag"
  let from_ts := qLookup qs "from_ts"
  let to_ts := qLookup qs "to_ts"
  match pyInt (qGetD qs "limit" "50") with
  | none => (.fault "ValueError: invalid literal for int() with base 10", st)
  | some limit =>
    let items0 := fetchItems st.table qs limit
    match (if truthyS tag then filterTagM (tag.getD "") items0
           else .ok items0 : Except String (List Item)) with
    | .error e => (.fault e, st)
    | .ok items1 =>
      let items2 : Except Unit (List Item) :=
        if truthyS from_ts || truthyS to_ts then
          match tsArg from_ts with
          | none => .error ()
          | some fts =>
            match tsArg to_ts with
            | none => .error ()
            | some tts => .ok (items1.filter (in_range fts tts))
        else .ok items1
      match items2 with
      | .error _ =>
          (.resp (response 400
            (.obj [("message", .str "from_ts and to_ts must be integers")])), st)
      | .ok items3 =>
          let st' : St :=
            { st with calls :=
                st.calls ++ items3.map (fun i => S3Call.presignGet i.s3_key) }
          (.resp (response 200 (itemsBody ctx items3)), st')

/-- Operation `get_image(event, image_id)` of the source. -/
def get_image (ctx : Ctx) (st : St) (image_id : String) : Outcome × St :=
  match getItem st.table image_id with
  | none => (.resp (response 404 (.obj [("message", .str "Image not found")])), st)
  | some item =>
      let st1 : St := { st with calls := st.calls ++ [S3Call.presignGet item.s3_key] }
      match ctx.presignGet item.s3_key with
      | .error e =>
          (.resp (response 500
            (.obj [("message", .str "Could not generate URL"),
                   ("error", .str e)])), st1)
      | .ok url =>
          (.resp (response 200
            (.obj (itemFields item ++ [("download_url", .str url)]))), st1)

/-- Operation `delete_image(event, image_id)` of the source: the object
deletion's exception is swallowed; the record deletion is unconditional. -/
def delete_image (ctx : Ctx) (st : St) (image_id : String) : Outcome × St :=
  match getItem st.table image_id with
  | none => (.resp (response 404 (.obj [("message", .str "Image not found")])), st)
  | some item =>
      let st1 : St := { st with calls := st.calls ++ [S3Call.deleteObject item.s3_key] }
      -- `try: s3.delete_object(...) except Exception: pass`
      let _ := ctx.deleteObj item.s3_key
      let st2 : St := { st1 with table := deleteItem st1.table image_id }
      (.resp (response 200
        (.obj [("message", .str "Deleted"), ("image_id", .str image_id)])), st2)

/-- Extraction of the trailing path segment:
`unquote_plus(path.split("/images/")[-1])`. -/
def pathImageId (path : String) : String :=
  unquote_plus (String.mk (lastPiece '/' "images/".toList path.toList))

/-- Router `lambda_handler(event, context)` of the source. -/
def lambda_handler (ctx : Ctx) (st : St) (ev : Event) : Outcome × St :=
  let path := ev.path
  let path_params := ev.pathParameters.getD []
  if ev.httpMethod == some "POST" && strEndsWith path "/images" then
    create_image ctx st ev
  else if ev.httpMethod == some "GET" && strEndsWith path "/images"
      && !truthyS (qLookup path_params "image_id") then
    list_images ctx st ev
  else if ev.httpMethod == some "GET" && strContains path "/images/" then
    get_image ctx st (pathImageId path)
  else if ev.httpMethod == some "DELETE" && strContains path "/images/" then
    delete_image ctx st (pathImageId path)
  else
    (.resp (response 404 (.obj [("message", .str "Not Found")])), st)

/-- Inclusive range filter following the spec's words — "created_at >=
from_ts if given, created_at <= to_ts if given", with no special case at
0 — for comparison with the source's `in_range`. -/
def spec_in_range (fts tts : Option Int) (i : Item) : Bool :=
  (match fts with | some v => decide (v ≤ i.created_at) | none => true) &&
  (match tts with | some v => decide (i.created_at ≤ v) | none => true)

/-! ### Auxiliary predicates used by the claim statements -/

/-- Tags value on which the `in` test cannot raise `TypeError`
(everything except a truthy number or `True`). -/
def tagsSafe : JValue → Bool
  | .num n => n == 0
  | .bool b => !b
  | _ => true

/-- Tags value that is a sequence, or falsy (treated as the empty
sequence by `tags or []`): the shape the data model prescribes. -/
def tagsWF : JValue → Bool
  | .arr _ => true
  | v => !truthy v

/-- Membership of tag `t` in a well-formed tags value. -/
def tagMem (t : String) : JValue → Bool
  | .arr xs => xs.any (fun x => x == JValue.str t)
  | _ => false

/-- Whether a payload field is missing or the empty string. -/
def missingOrEmpty (o : Option JValue) : Prop :=
  o = none ∨ o = some (.str "")

/-- Whether a response body is a JSON object with a `message` field. -/
def hasMessage : JValue → Bool
  | .obj fs => (jLookup fs "message").isSome
  | _ => false

/-! ### Concrete fixtures for witnesses and counterexamples -/

/-- A context whose collaborator calls all succeed. -/
def ctxW : Ctx :=
  { freshId := "7f9d2a31-4c4e-4b37-9a66-0d3c5b2f8e11"
    now := 1700000000
    presignPut := fun _ _ => .ok "https://bucket.example/put"
    presignGet := fun _ => .ok "https://bucket.example/get"
    deleteObj := fun _ => .ok () }

/-- A context whose object deletion fails. -/
def ctxDelFail : Ctx :=
  { ctxW with deleteObj := fun _ => .error "AccessDenied" }

/-- A context whose presigned-GET generation fails. -/
def ctxGetFail : Ctx :=
  { ctxW with presignGet := fun _ => .error "NoCredentialsError" }

def st0 : St := { table := [], calls := [] }

def itW : Item :=
  { image_id := "i1"
    user_id := .str "u1"
    s3_key := "u1/i1/a.jpg"
    filename := .str "a.jpg"
    content_type := .str "image/jpeg"
    tags := .arr [.str "sun"]
    description := .str ""
    created_at := 1 }

def stW : St := { table := [itW], calls := [] }

/-! ### Claim theorems -/

/-- Auxiliary: a non-empty string is not `isEmpty`. -/
lemma isEmpty_false_of_ne {s : String} (h : s ≠ "") : s.isEmpty = false := by
  cases hc : s.isEmpty
  · rfl
  · exact absurd ((String.isEmpty_iff s).mp hc) h

/-- C1: a create request whose JSON body carries a non-empty `user_id`
and a non-empty `filename` returns 201 with a non-empty `image_id`, an
`upload_url`, and `s3_key = user_id ++ "/" ++ image_id ++ "/" ++ filename`
(given that the stateless presigned-PUT call succeeds, as it does under
normal operation). -/
theorem create_valid_returns_201 (ctx : Ctx) (st : St) (ev : Event)
    (pfields : List (String × JValue)) (u f url : String)
    (hb : parsedPayload ev.body = .ok (.obj pfields))
    (hu : jLookup pfields "user_id" = some (.str u)) (hune : u ≠ "")
    (hf : jLookup pfields "filename" = some (.str f)) (hfne : f ≠ "")
    (hok : ctx.presignPut (u ++ "/" ++ ctx.freshId ++ "/" ++ f)
        ((jLookup pfields "content_type").getD (.str "application/octet-stream"))
        = .ok url)
    (hid : ctx.freshId ≠ "") :
    (create_image ctx st ev).1 = .resp (response 201 (.obj
        [("image_id", .str ctx.freshId),
         ("upload_url", .str url),
         ("s3_key", .str (u ++ "/" ++ ctx.freshId ++ "/" ++ f))])) ∧
      ctx.freshId ≠ "" := by
  refine ⟨?_, hid⟩
  simp [create_image, hb, hu, hf, truthyO, truthy, pyStrO, pyStr,
    isEmpty_false_of_ne hune, isEmpty_false_of_ne hfne, hok]

def evC1 : Event :=
  { httpMethod := some "POST"
    path := "/images"
    queryStringParameters := none
    pathParameters := none
    body := .val (.obj [("user_id", .str "u1"), ("filename", .str "p.jpg")])
    isBase64Encoded := false }

theorem create_valid_returns_201_witness :
    parsedPayload evC1.body
        = .ok (.obj [("user_id", .str "u1"), ("filename", .str "p.jpg")]) ∧
    ("u1" : String) ≠ "" ∧
    ((create_image ctxW st0 evC1).1 = .resp (response 201 (.obj
        [("image_id", .str ctxW.freshId),
         ("upload_url", .str "https://bucket.example/put"),
         ("s3_key", .str ("u1" ++ "/" ++ ctxW.freshId ++ "/" ++ "p.jpg"))])) ∧
      ctxW.freshId ≠ "") :=
  ⟨rfl, by decide,
    create_valid_returns_201 ctxW st0 evC1
      [("user_id", .str "u1"), ("filename", .str "p.jpg")]
      "u1" "p.jpg" "https://bucket.example/put"
      rfl rfl (by decide) rfl (by decide) rfl (by decide)⟩

/-- C8: a create request whose body is not valid JSON, or whose parsed
JSON object has a missing or empty `user_id` or `filename`, returns 400. -/
theorem create_invalid_returns_400 (ctx : Ctx) (st : St) (ev : Event) :
    (ev.body = .invalid →
      create_image ctx st ev =
        (.resp (response 400 (.obj [("message", .str "Invalid JSON")])), st)) ∧
    (∀ pfields, parsedPayload ev.body = .ok (.obj pfields) →
      missingOrEmpty (jLookup pfields "user_id")
        ∨ missingOrEmpty (jLookup pfields "filename") →
      create_image ctx st ev =
        (.resp (response 400
          (.obj [("message", .str "user_id and filename are required")])), st)) := by
  constructor
  · intro h
    simp [create_image, h, parsedPayload]
  · intro pfields hb hmiss
    have hcond : (!truthyO (jLookup pfields "user_id")
        || !truthyO (jLookup pfields "filename")) = true := by
      rcases hmiss with h | h <;> rcases h with h | h <;>
        simp [h, truthyO, truthy] <;>
        first
          | exact Or.inl (by decide)
          | exact Or.inr (by decide)
    simp [create_image, hb, hcond]

theorem create_invalid_returns_400_witness :
    (BodyRep.invalid = BodyRep.invalid) ∧
    create_image ctxW st0
        { evC1 with body := .invalid } =
      (.resp (response 400 (.obj [("message", .str "Invalid JSON")])), st0) :=
  ⟨rfl, (create_invalid_returns_400 ctxW st0 { evC1 with body := .invalid }).1 rfl⟩

/-- C10: a create request rejected with 400 leaves the record store
unchanged and issues no object-store call. -/
theorem create_400_leaves_state (ctx : Ctx) (st : St) (ev : Event)
    (r : HResp) (st' : St)
    (h : create_image ctx st ev = (.resp r, st'))
    (h400 : r.statusCode = 400) :
    st'.table = st.table ∧ st'.calls = st.calls := by
  simp only [create_image] at h
  split at h
  · injection h with h1 h2
    subst h2
    exact ⟨rfl, rfl⟩
  · split at h
    · split at h
      · injection h with h1 h2
        subst h2
        exact ⟨rfl, rfl⟩
      · split at h
        · injection h with h1 h2
          exact absurd h1 (by simp)
        · injection h with h1 h2
          injection h1 with h1
          rw [← h1] at h400
          simp only [response] at h400
          omega
    · injection h with h1 h2
      exact absurd h1 (by simp)

def evC10 : Event := { evC1 with body := .val (.obj [("user_id", .str "u1")]) }

/-! ### Lemmas about the listing pipeline -/

/-- Membership test on a well-formed tags value never raises and is
plain sequence membership. -/
lemma pyInTags_wf (t : String) (v : JValue) (h : tagsWF v = true) :
    pyInTags t v = .ok (tagMem t v) := by
  cases v with
  | null => simp [pyInTags, truthy, tagMem]
  | bool b =>
      simp only [tagsWF, truthy, Bool.not_eq_true'] at h
      simp [pyInTags, truthy, h, tagMem]
  | num n =>
      simp only [tagsWF, truthy] at h
      simp only [Bool.not_eq_true', bne_eq_false_iff_eq] at h
      simp [pyInTags, truthy, h, tagMem]
  | str s =>
      simp only [tagsWF, truthy, Bool.not_not] at h
      simp [pyInTags, truthy, h, tagMem]
  | arr xs => cases xs <;> simp [pyInTags, truthy, tagMem]
  | obj fs =>
      simp only [tagsWF, truthy, Bool.not_not] at h
      simp [pyInTags, truthy, h, tagMem]

/-- Under well-formed tags the comprehension is the plain membership
filter. -/
lemma filterTagM_eq_filter (t : String) (items : List Item)
    (h : ∀ i ∈ items, tagsWF i.tags = true) :
    filterTagM t items = .ok (items.filter (fun i => tagMem t i.tags)) := by
  induction items with
  | nil => rfl
  | cons i is ih =>
      have hi := h i (List.mem_cons_self i is)
      have his := ih (fun j hj => h j (List.mem_cons_of_mem i hj))
      simp only [filterTagM, pyInTags_wf t i.tags hi, his, List.filter_cons]

/-- Membership test on a merely safe tags value never raises. -/
lemma pyInTags_safe (t : String) (v : JValue) (h : tagsSafe v = true) :
    ∃ b, pyInTags t v = .ok b := by
  unfold pyInTags
  split
  · exact ⟨false, rfl⟩
  · next hv =>
    simp only [Bool.not_eq_true, Bool.not_eq_false] at hv
    cases v with
    | null => simp [truthy] at hv
    | bool b => simp only [tagsSafe, Bool.not_eq_true'] at h; simp [h, truthy] at hv
    | num n =>
        simp only [tagsSafe, beq_iff_eq] at h
        simp [h, truthy] at hv
    | str s => exact ⟨_, rfl⟩
    | arr xs => exact ⟨_, rfl⟩
    | obj fs => exact ⟨_, rfl⟩

/-- On merely safe tags the comprehension cannot raise. -/
lemma filterTagM_isOk (t : String) (items : List Item)
    (h : ∀ i ∈ items, tagsSafe i.tags = true) :
    ∃ l, filterTagM t items = .ok l := by
  induction items with
  | nil => exact ⟨[], rfl⟩
  | cons i is ih =>
      obtain ⟨l, hl⟩ := ih (fun j hj => h j (List.mem_cons_of_mem i hj))
      obtain ⟨b, hb⟩ := pyInTags_safe t i.tags (h i (List.mem_cons_self i is))
      exact ⟨if b then i :: l else l, by simp [filterTagM, hb, hl]⟩

/-- Fetched records come from the table. -/
lemma mem_fetchItems {tbl : List Item} {qs : List (String × String)}
    {L : Int} {i : Item} (h : i ∈ fetchItems tbl qs L) : i ∈ tbl := by
  unfold fetchItems at h
  split at h
  · exact List.mem_of_mem_filter (List.mem_of_mem_take h)
  · exact List.mem_of_mem_take h

/-- With both bounds disabled `in_range` accepts everything. -/
lemma in_range_none_none (i : Item) : in_range none none i = true := by
  simp [in_range]

/-- Characterization of the source's range predicate: a bound constrains
only when its value is present and non-zero. -/
lemma in_range_iff (fts tts : Option Int) (i : Item) :
    in_range fts tts i = true ↔
      ((fts.getD 0 ≠ 0 → fts.getD 0 ≤ i.created_at) ∧
       (tts.getD 0 ≠ 0 → i.created_at ≤ tts.getD 0)) := by
  unfold in_range
  split_ifs with h1 h2
  · simp only [Bool.and_eq_true, bne_iff_ne, decide_eq_true_eq] at h1
    constructor
    · intro h; exact h.elim
    · intro hab; exact absurd (hab.1 h1.1) (by omega)
  · simp only [Bool.and_eq_true, bne_iff_ne, decide_eq_true_eq, gt_iff_lt] at h2
    constructor
    · intro h; exact h.elim
    · intro hab; exact absurd (hab.2 h2.1) (by omega)
  · simp only [Bool.and_eq_true, bne_iff_ne, decide_eq_true_eq, not_and,
      not_lt, gt_iff_lt] at h1 h2
    exact ⟨fun _ => ⟨h1, h2⟩, fun _ => rfl⟩

/-- The main run of `list_images` when the limit parses, tags are
well-formed, and the timestamp arguments evaluate: the result is 200 and
the items are the fetched records, tag-filtered then range-filtered. -/
lemma list_images_run (ctx : Ctx) (st : St) (ev : Event)
    (qs : List (String × String)) (L : Int) (fts tts : Option Int)
    (hqs : ev.queryStringParameters = some qs)
    (hL : pyInt (qGetD qs "limit" "50") = some L)
    (hwf : ∀ i ∈ st.table, tagsWF i.tags = true)
    (hfrom : tsArg (qLookup qs "from_ts") = some fts)
    (hto : tsArg (qLookup qs "to_ts") = some tts) :
    (list_images ctx st ev).1 = .resp (response 200 (itemsBody ctx
        (((fetchItems st.table qs L).filter
            (fun i => !truthyS (qLookup qs "tag")
              || tagMem ((qLookup qs "tag").getD "") i.tags)).filter
          (in_range fts tts)))) := by
  have hstep1 : (if truthyS (qLookup qs "tag") then
        filterTagM ((qLookup qs "tag").getD "") (fetchItems st.table qs L)
      else .ok (fetchItems st.table qs L) : Except String (List Item))
      = .ok ((fetchItems st.table qs L).filter
          (fun i => !truthyS (qLookup qs "tag")
            || tagMem ((qLookup qs "tag").getD "") i.tags)) := by
    by_cases htag : truthyS (qLookup qs "tag") = true
    · rw [if_pos htag]
      simp only [htag, Bool.not_true, Bool.false_or]
      exact filterTagM_eq_filter _ _ (fun i hi => hwf i (mem_fetchItems hi))
    · rw [if_neg htag]
      have htag' : truthyS (qLookup qs "tag") = false := by
        simpa using htag
      simp only [htag', Bool.not_false, Bool.true_or]
      rw [List.filter_eq_self.mpr (fun a _ => rfl)]
  have hstep2 : ∀ items1 : List Item,
      (if truthyS (qLookup qs "from_ts") || truthyS (qLookup qs "to_ts") then
        match tsArg (qLookup qs "from_ts") with
        | none => .error ()
        | some fts' =>
          match tsArg (qLookup qs "to_ts") with
          | none => .error ()
          | some tts' => .ok (items1.filter (in_range fts' tts'))
      else .ok items1 : Except Unit (List Item))
      = .ok (items1.filter (in_range fts tts)) := by
    intro items1
    by_cases hc : (truthyS (qLookup qs "from_ts") || truthyS (qLookup qs "to_ts")) = true
    · rw [if_pos hc]
      simp only [hfrom, hto]
    · rw [if_neg hc]
      have hcf : truthyS (qLookup qs "from_ts") = false
          ∧ truthyS (qLookup qs "to_ts") = false := by
        simpa [not_or] using hc
      have hf' : tsArg (qLookup qs "from_ts") = some none := by
        unfold tsArg
        rw [if_neg (by simp [hcf.1])]
      have ht' : tsArg (qLookup qs "to_ts") = some none := by
        unfold tsArg
        rw [if_neg (by simp [hcf.2])]
      rw [hf'] at hfrom
      rw [ht'] at hto
      injection hfrom with hfrom
      injection hto with hto
      subst hfrom; subst hto
      rw [List.filter_eq_self.mpr (fun a _ => in_range_none_none a)]
  simp only [list_images, hqs, Option.getD_some, hL, hstep1, hstep2]

theorem create_400_leaves_state_witness :
    create_image ctxW stW evC10 =
      (.resp (response 400
        (.obj [("message", .str "user_id and filename are required")])), stW) ∧
    (response 400
        (.obj [("message", .str "user_id and filename are required")])).statusCode
      = 400 ∧
    stW.table = stW.table ∧ stW.calls = stW.calls :=
  ⟨rfl, rfl, create_400_leaves_state ctxW stW evC10 _ _ rfl rfl⟩

/-- Listing request with `to_ts=0` against a table holding one record
with `created_at = 1`. -/
def evTs0 : Event :=
  { httpMethod := some "GET"
    path := "/images"
    queryStringParameters := some [("to_ts", "0")]
    pathParameters := none
    body := .absent
    isBase64Encoded := false }

/-- C2 counterexample: with `to_ts = 0`, the record with `created_at = 1`
lies outside the inclusive range, yet the handler returns it — the
source's truthiness guard (`if tts and ...`) disables a bound whose value
is `0`, so the claim's "for all integer filter values including 0" fails. -/
theorem list_ts_zero_counterexample :
    (lambda_handler ctxW stW evTs0).1
        = .resp (response 200 (itemsBody ctxW [itW])) ∧
    (scanTable stW.table 50).filter (spec_in_range none (some 0)) = [] ∧
    spec_in_range none (some 0) itW = false :=
  ⟨rfl, rfl, rfl⟩

/-- C2 (amended): when `from_ts`/`to_ts` parse as integers (and no tag
filter is given, the limit parses), the returned items are exactly the
fetched records surviving the range check, where a bound constrains the
record only when it is given and non-zero; a bound of 0 imposes no
constraint. -/
theorem list_ts_filter_amended (ctx : Ctx) (st : St) (ev : Event)
    (qs : List (String × String)) (L : Int) (fts tts : Option Int)
    (hqs : ev.queryStringParameters = some qs)
    (hL : pyInt (qGetD qs "limit" "50") = some L)
    (hwf : ∀ i ∈ st.table, tagsWF i.tags = true)
    (htag : truthyS (qLookup qs "tag") = false)
    (hfrom : tsArg (qLookup qs "from_ts") = some fts)
    (hto : tsArg (qLookup qs "to_ts") = some tts) :
    (list_images ctx st ev).1 = .resp (response 200 (itemsBody ctx
        ((fetchItems st.table qs L).filter (in_range fts tts)))) ∧
    ∀ i : Item, in_range fts tts i = true ↔
      ((fts.getD 0 ≠ 0 → fts.getD 0 ≤ i.created_at) ∧
       (tts.getD 0 ≠ 0 → i.created_at ≤ tts.getD 0)) := by
  refine ⟨?_, fun i => in_range_iff fts tts i⟩
  have h := list_images_run ctx st ev qs L fts tts hqs hL hwf hfrom hto
  simp only [htag, Bool.not_false, Bool.true_or] at h
  rwa [List.filter_eq_self.mpr (fun a _ => rfl)] at h

/-- Listing request with both timestamp bounds present and parseable. -/
def evTsBoth : Event :=
  { httpMethod := some "GET"
    path := "/images"
    queryStringParameters := some [("from_ts", "1"), ("to_ts", "2")]
    pathParameters := none
    body := .absent
    isBase64Encoded := false }

theorem list_ts_filter_amended_witness :
    tsArg (qLookup [("from_ts", "1"), ("to_ts", "2")] "from_ts")
        = some (some 1) ∧
    ((list_images ctxW stW evTsBoth).1 = .resp (response 200 (itemsBody ctxW
        ((fetchItems stW.table [("from_ts", "1"), ("to_ts", "2")] 50).filter
          (in_range (some 1) (some 2))))) ∧
     ∀ i : Item, in_range (some 1) (some 2) i = true ↔
      (((some 1 : Option Int).getD 0 ≠ 0
          → ((some 1 : Option Int)).getD 0 ≤ i.created_at) ∧
       ((some 2 : Option Int).getD 0 ≠ 0
          → i.created_at ≤ ((some 2 : Option Int)).getD 0))) :=
  ⟨rfl,
    list_ts_filter_amended ctxW stW evTsBoth
      [("from_ts", "1"), ("to_ts", "2")] 50 (some 1) (some 2)
      rfl rfl (by decide) rfl rfl rfl⟩

/-- C7: listing with a non-empty tag `T` (the limit parsing, tags being
well-formed sequences, the timestamp arguments evaluating) returns
exactly the fetched records whose tag sequence contains `T`, further
range-filtered; membership is exact element membership of `T` in the
sequence. -/
theorem list_tag_filter_exact (ctx : Ctx) (st : St) (ev : Event)
    (qs : List (String × String)) (L : Int) (T : String) (fts tts : Option Int)
    (hqs : ev.queryStringParameters = some qs)
    (hL : pyInt (qGetD qs "limit" "50") = some L)
    (hwf : ∀ i ∈ st.table, tagsWF i.tags = true)
    (htag : qLookup qs "tag" = some T) (hT : T ≠ "")
    (hfrom : tsArg (qLookup qs "from_ts") = some fts)
    (hto : tsArg (qLookup qs "to_ts") = some tts) :
    (list_images ctx st ev).1 = .resp (response 200 (itemsBody ctx
        (((fetchItems st.table qs L).filter (fun i => tagMem T i.tags)).filter
          (in_range fts tts)))) ∧
    ∀ xs : List JValue, tagMem T (.arr xs) = true ↔ JValue.str T ∈ xs := by
  constructor
  · have h := list_images_run ctx st ev qs L fts tts hqs hL hwf hfrom hto
    have htr : truthyS (qLookup qs "tag") = true := by
      simp [truthyS, htag, isEmpty_false_of_ne hT]
    simp only [htr, Bool.not_true, Bool.false_or] at h
    simp only [htag, Option.getD_some] at h
    exact h
  · intro xs
    simp [tagMem, List.any_eq_true]

/-- Listing request with a tag filter. -/
def evTag : Event :=
  { httpMethod := some "GET"
    path := "/images"
    queryStringParameters := some [("tag", "sun")]
    pathParameters := none
    body := .absent
    isBase64Encoded := false }

theorem list_tag_filter_exact_witness :
    qLookup [(("tag" : String), ("sun" : String))] "tag" = some "sun" ∧
    ((list_images ctxW stW evTag).1 = .resp (response 200 (itemsBody ctxW
        (((fetchItems stW.table [("tag", "sun")] 50).filter
            (fun i => tagMem "sun" i.tags)).filter (in_range none none)))) ∧
     ∀ xs : List JValue, tagMem "sun" (.arr xs) = true ↔ JValue.str "sun" ∈ xs) :=
  ⟨rfl,
    list_tag_filter_exact ctxW stW evTag [("tag", "sun")] 50 "sun" none none
      rfl rfl (by decide) rfl (by decide) rfl rfl⟩

/-- Listing request with `from_ts` supplied as the empty string. -/
def evTsEmpty : Event :=
  { httpMethod := some "GET"
    path := "/images"
    queryStringParameters := some [("from_ts", "")]
    pathParameters := none
    body := .absent
    isBase64Encoded := false }

/-- C9 counterexample: `from_ts` supplied as the empty string is not
parseable as an integer (`int("")` raises `ValueError`), yet the handler
returns 200, not 400 — the guard `if from_ts or to_ts` treats the empty
string as absent and never attempts the parse. -/
theorem list_empty_ts_counterexample :
    qLookup [(("from_ts" : String), ("" : String))] "from_ts" = some "" ∧
    pyInt "" = none ∧
    (lambda_handler ctxW st0 evTsEmpty).1
      = .resp (response 200 (itemsBody ctxW [])) :=
  ⟨rfl, rfl, rfl⟩

/-- C9 (amended): a `from_ts` or `to_ts` that is supplied non-empty and
does not parse as an integer yields 400 (provided the limit itself parses
and the tag filter cannot raise first). -/
theorem list_bad_ts_returns_400 (ctx : Ctx) (st : St) (ev : Event)
    (qs : List (String × String)) (L : Int)
    (hqs : ev.queryStringParameters = some qs)
    (hL : pyInt (qGetD qs "limit" "50") = some L)
    (hsafe : ∀ i ∈ st.table, tagsSafe i.tags = true)
    (hbad : (truthyS (qLookup qs "from_ts") = true
              ∧ pyInt ((qLookup qs "from_ts").getD "") = none)
          ∨ (truthyS (qLookup qs "to_ts") = true
              ∧ pyInt ((qLookup qs "to_ts").getD "") = none)) :
    (list_images ctx st ev).1 =
      .resp (response 400
        (.obj [("message", .str "from_ts and to_ts must be integers")])) := by
  have hfil : ∃ l, (if truthyS (qLookup qs "tag") then
      filterTagM ((qLookup qs "tag").getD "") (fetchItems st.table qs L)
      else .ok (fetchItems st.table qs L) : Except String (List Item)) = .ok l := by
    by_cases htag : truthyS (qLookup qs "tag") = true
    · rw [if_pos htag]
      exact filterTagM_isOk _ _ (fun i hi => hsafe i (mem_fetchItems hi))
    · rw [if_neg htag]
      exact ⟨_, rfl⟩
  obtain ⟨l, hl⟩ := hfil
  have hcond : (truthyS (qLookup qs "from_ts")
      || truthyS (qLookup qs "to_ts")) = true := by
    rcases hbad with ⟨h1, _⟩ | ⟨h1, _⟩ <;> simp [h1]
  simp only [list_images, hqs, Option.getD_some, hL, hl]
  rw [if_pos hcond]
  rcases hbad with ⟨h1, h2⟩ | ⟨h1, h2⟩
  · have hf : tsArg (qLookup qs "from_ts") = none := by
      unfold tsArg
      rw [if_pos h1, h2]
      rfl
    simp only [hf]
  · cases hf : tsArg (qLookup qs "from_ts") with
    | none => simp only [hf]
    | some fts' =>
        have ht : tsArg (qLookup qs "to_ts") = none := by
          unfold tsArg
          rw [if_pos h1, h2]
          rfl
        simp only [hf, ht]

/-- Listing request with an unparseable `from_ts`. -/
def evBadTs : Event :=
  { httpMethod := some "GET"
    path := "/images"
    queryStringParameters := some [("from_ts", "abc")]
    pathParameters := none
    body := .absent
    isBase64Encoded := false }

/-- Create never faults when JSON bodies are objects and the presigned
PUT call succeeds, and its error responses carry a message. -/
lemma create_total (ctx : Ctx) (st : St) (ev : Event)
    (hput : ∀ k c, ∃ u, ctx.presignPut k c = .ok u)
    (hbody : ∀ v, ev.body = .val v → ∃ pfields, v = .obj pfields) :
    ∃ r, (create_image ctx st ev).1 = .resp r ∧
      (400 ≤ r.statusCode → hasMessage r.body = true) := by
  have go : ∀ pfields, parsedPayload ev.body = .ok (.obj pfields) →
      ∃ r, (create_image ctx st ev).1 = .resp r ∧
        (400 ≤ r.statusCode → hasMessage r.body = true) := by
    intro pfields hb
    by_cases hcond : (!truthyO (jLookup pfields "user_id")
        || !truthyO (jLookup pfields "filename")) = true
    · refine ⟨response 400
        (.obj [("message", .str "user_id and filename are required")]), ?_, ?_⟩
      · simp [create_image, hb, hcond]
      · intro _; rfl
    · obtain ⟨url, hurl⟩ := hput
        (pyStrO (jLookup pfields "user_id") ++ "/" ++ ctx.freshId ++ "/"
          ++ pyStrO (jLookup pfields "filename"))
        ((jLookup pfields "content_type").getD (.str "application/octet-stream"))
      refine ⟨response 201
        (.obj [("image_id", .str ctx.freshId),
               ("upload_url", .str url),
               ("s3_key", .str (pyStrO (jLookup pfields "user_id") ++ "/"
                 ++ ctx.freshId ++ "/"
                 ++ pyStrO (jLookup pfields "filename")))]), ?_, ?_⟩
      · simp [create_image, hb, hcond, hurl]
      · intro hge
        exact absurd hge (by simp [response])
  cases hb : ev.body with
  | invalid =>
      refine ⟨response 400 (.obj [("message", .str "Invalid JSON")]), ?_, ?_⟩
      · simp [create_image, hb, parsedPayload]
      · intro _; rfl
  | absent => exact go [] (by simp [hb, parsedPayload])
  | val v =>
      obtain ⟨pfields, hv⟩ := hbody v hb
      subst hv
      exact go pfields (by simp [hb, parsedPayload])

/-- List never faults when the limit parses and all stored tags are safe
for the membership test, and its error responses carry a message. -/
lemma list_total (ctx : Ctx) (st : St) (ev : Event)
    (hlim : ∀ qs, ev.queryStringParameters = some qs →
        (pyInt (qGetD qs "limit" "50")).isSome = true)
    (hsafe : ∀ i ∈ st.table, tagsSafe i.tags = true) :
    ∃ r, (list_images ctx st ev).1 = .resp r ∧
      (400 ≤ r.statusCode → hasMessage r.body = true) := by
  have hL : ∃ L, pyInt (qGetD (ev.queryStringParameters.getD []) "limit" "50")
      = some L := by
    cases hq : ev.queryStringParameters with
    | none => exact ⟨50, rfl⟩
    | some qs =>
        have hs := hlim qs hq
        cases hp : pyInt (qGetD qs "limit" "50") with
        | none => rw [hp] at hs; exact absurd hs (by simp)
        | some L => exact ⟨L, by simp [hp]⟩
  obtain ⟨L, hL⟩ := hL
  have hfil : ∃ l, (if truthyS (qLookup (ev.queryStringParameters.getD []) "tag") then
      filterTagM ((qLookup (ev.queryStringParameters.getD []) "tag").getD "")
        (fetchItems st.table (ev.queryStringParameters.getD []) L)
      else .ok (fetchItems st.table (ev.queryStringParameters.getD []) L)
      : Except String (List Item)) = .ok l := by
    by_cases htag : truthyS (qLookup (ev.queryStringParameters.getD []) "tag") = true
    · rw [if_pos htag]
      exact filterTagM_isOk _ _ (fun i hi => hsafe i (mem_fetchItems hi))
    · rw [if_neg htag]
      exact ⟨_, rfl⟩
  obtain ⟨l, hl⟩ := hfil
  by_cases hcnd : (truthyS (qLookup (ev.queryStringParameters.getD []) "from_ts")
      || truthyS (qLookup (ev.queryStringParameters.getD []) "to_ts")) = true
  · cases hf : tsArg (qLookup (ev.queryStringParameters.getD []) "from_ts") with
    | none =>
        refine ⟨response 400
          (.obj [("message", .str "from_ts and to_ts must be integers")]), ?_, ?_⟩
        · simp only [list_images, hL, hl]
          rw [if_pos hcnd]
          simp only [hf]
        · intro _; rfl
    | some fts =>
        cases ht : tsArg (qLookup (ev.queryStringParameters.getD []) "to_ts") with
        | none =>
            refine ⟨response 400
              (.obj [("message", .str "from_ts and to_ts must be integers")]), ?_, ?_⟩
            · simp only [list_images, hL, hl]
              rw [if_pos hcnd]
              simp only [hf, ht]
            · intro _; rfl
        | some tts =>
            refine ⟨response 200 (itemsBody ctx (l.filter (in_range fts tts))), ?_, ?_⟩
            · simp only [list_images, hL, hl]
              rw [if_pos hcnd]
              simp only [hf, ht]
            · intro hge
              exact absurd hge (by simp [response])
  · refine ⟨response 200 (itemsBody ctx l), ?_, ?_⟩
    · simp only [list_images, hL, hl]
      rw [if_neg hcnd]
    · intro hge
      exact absurd hge (by simp [response])

/-- Get never faults; its error responses carry a message. -/
lemma get_total (ctx : Ctx) (st : St) (id : String) :
    ∃ r, (get_image ctx st id).1 = .resp r ∧
      (400 ≤ r.statusCode → hasMessage r.body = true) := by
  unfold get_image
  cases h : getItem st.table id with
  | none => exact ⟨_, rfl, fun _ => rfl⟩
  | some it =>
      cases hp : ctx.presignGet it.s3_key with
      | error e =>
          refine ⟨response 500 (.obj [("message", .str "Could not generate URL"),
            ("error", .str e)]), ?_, ?_⟩
          · simp [hp]
          · intro _; rfl
      | ok url =>
          refine ⟨response 200 (.obj (itemFields it
            ++ [("download_url", .str url)])), ?_, ?_⟩
          · simp [hp]
          · intro hge
            exact absurd hge (by simp [response])

/-- Delete never faults; its error responses carry a message. -/
lemma delete_total (ctx : Ctx) (st : St) (id : String) :
    ∃ r, (delete_image ctx st id).1 = .resp r ∧
      (400 ≤ r.statusCode → hasMessage r.body = true) := by
  unfold delete_image
  cases h : getItem st.table id with
  | none => exact ⟨_, rfl, fun _ => rfl⟩
  | some it =>
      refine ⟨response 200 (.obj [("message", .str "Deleted"),
        ("image_id", .str id)]), ?_, ?_⟩
      · simp
      · intro hge
        exact absurd hge (by simp [response])

/-- Listing request with an unparseable `limit` query parameter. -/
def evBadLimit : Event :=
  { httpMethod := some "GET"
    path := "/images"
    queryStringParameters := some [("limit", "abc")]
    pathParameters := none
    body := .absent
    isBase64Encoded := false }

/-- C3 counterexample: a list request with `limit=abc` makes the
uncaught `int(qs.get("limit", "50"))` raise `ValueError`, a raw
unhandled fault rather than any normalized response. -/
theorem handler_limit_fault_counterexample :
    (lambda_handler ctxW st0 evBadLimit).1
      = .fault "ValueError: invalid literal for int() with base 10" ∧
    ∀ r : HResp, (lambda_handler ctxW st0 evBadLimit).1 ≠ .resp r :=
  ⟨rfl, by
    intro r h
    have h0 : (lambda_handler ctxW st0 evBadLimit).1
        = Outcome.fault "ValueError: invalid literal for int() with base 10" := rfl
    rw [h0] at h
    exact Outcome.noConfusion h⟩

/-- C3 (amended): the handler returns a normalized response for every
request, and every response with status at least 400 is a JSON object
with a `message` field — provided the presigned-PUT call succeeds, JSON
bodies that parse are objects, a supplied `limit` parses as an integer,
and no stored record has a truthy non-container tags value (each excluded
case is an uncaught exception in the source, the cited non-integer
`limit` being one such fault). -/
theorem handler_total_amended (ctx : Ctx) (st : St) (ev : Event)
    (hput : ∀ k c, ∃ u, ctx.presignPut k c = .ok u)
    (hbody : ∀ v, ev.body = .val v → ∃ pfields, v = .obj pfields)
    (hlim : ∀ qs, ev.queryStringParameters = some qs →
        (pyInt (qGetD qs "limit" "50")).isSome = true)
    (hsafe : ∀ i ∈ st.table, tagsSafe i.tags = true) :
    ∃ r, (lambda_handler ctx st ev).1 = .resp r ∧
      (400 ≤ r.statusCode → hasMessage r.body = true) := by
  simp only [lambda_handler]
  by_cases h1 : (ev.httpMethod == some "POST"
      && strEndsWith ev.path "/images") = true
  · rw [if_pos h1]
    exact create_total ctx st ev hput hbody
  · rw [if_neg h1]
    by_cases h2 : (ev.httpMethod == some "GET" && strEndsWith ev.path "/images"
        && !truthyS (qLookup (ev.pathParameters.getD []) "image_id")) = true
    · rw [if_pos h2]
      exact list_total ctx st ev hlim hsafe
    · rw [if_neg h2]
      by_cases h3 : (ev.httpMethod == some "GET"
          && strContains ev.path "/images/") = true
      · rw [if_pos h3]
        exact get_total ctx st (pathImageId ev.path)
      · rw [if_neg h3]
        by_cases h4 : (ev.httpMethod == some "DELETE"
            && strContains ev.path "/images/") = true
        · rw [if_pos h4]
          exact delete_total ctx st (pathImageId ev.path)
        · rw [if_neg h4]
          exact ⟨_, rfl, fun _ => rfl⟩

theorem handler_total_amended_witness :
    (∀ k c, ∃ u, ctxW.presignPut k c = .ok u) ∧
    ∃ r, (lambda_handler ctxW stW evTag).1 = .resp r ∧
      (400 ≤ r.statusCode → hasMessage r.body = true) := by
  refine ⟨fun k c => ⟨"https://bucket.example/put", rfl⟩, ?_⟩
  refine handler_total_amended ctxW stW evTag
    (fun k c => ⟨"https://bucket.example/put", rfl⟩) ?_ ?_ ?_
  · intro v hv
    exact BodyRep.noConfusion hv
  · intro qs hq
    injection hq with hq
    subst hq
    rfl
  · exact (by decide : ∀ i ∈ stW.table, tagsSafe i.tags = true)

/-- A deleted key is no longer found. -/
lemma getItem_deleteItem (tbl : List Item) (id : String) :
    getItem (deleteItem tbl id) id = none := by
  unfold getItem deleteItem
  rw [List.find?_eq_none]
  intro x hx
  have hmem := (List.mem_filter.mp hx).2
  simp only [Bool.not_eq_true'] at hmem
  simp [hmem]

/-- C4: a get request finds no record and returns 404; or it finds the
record and returns 500 with an error description when URL generation
fails, and 200 with the full record plus `download_url` when it
succeeds. -/
theorem get_image_cases (ctx : Ctx) (st : St) (id : String) :
    (getItem st.table id = none →
      get_image ctx st id =
        (.resp (response 404 (.obj [("message", .str "Image not found")])), st)) ∧
    (∀ it, getItem st.table id = some it →
      (∀ e, ctx.presignGet it.s3_key = .error e →
        (get_image ctx st id).1 = .resp (response 500
          (.obj [("message", .str "Could not generate URL"),
                 ("error", .str e)]))) ∧
      (∀ url, ctx.presignGet it.s3_key = .ok url →
        (get_image ctx st id).1 = .resp (response 200
          (.obj (itemFields it ++ [("download_url", .str url)]))))) := by
  refine ⟨fun h => by simp [get_image, h], fun it h => ⟨fun e he => ?_, fun url hu => ?_⟩⟩
  · simp [get_image, h, he]
  · simp [get_image, h, hu]

theorem get_image_cases_witness :
    getItem stW.table "i1" = some itW ∧
    (get_image ctxW stW "i1").1 = .resp (response 200
      (.obj (itemFields itW
        ++ [("download_url", .str "https://bucket.example/get")]))) ∧
    (get_image ctxGetFail stW "i1").1 = .resp (response 500
      (.obj [("message", .str "Could not generate URL"),
             ("error", .str "NoCredentialsError")])) ∧
    get_image ctxW st0 "zz" =
      (.resp (response 404 (.obj [("message", .str "Image not found")])), st0) :=
  ⟨rfl,
    ((get_image_cases ctxW stW "i1").2 itW rfl).2 "https://bucket.example/get" rfl,
    ((get_image_cases ctxGetFail stW "i1").2 itW rfl).1 "NoCredentialsError" rfl,
    (get_image_cases ctxW st0 "zz").1 rfl⟩

/-- C5: deleting an existing record returns 200 with the `image_id`, and
a subsequent get for the same id (under any context) returns 404. -/
theorem delete_then_get_404 (ctx ctx2 : Ctx) (st : St) (id : String) (it : Item)
    (h : getItem st.table id = some it) :
    delete_image ctx st id =
      (.resp (response 200
        (.obj [("message", .str "Deleted"), ("image_id", .str id)])),
       { table := deleteItem st.table id,
         calls := st.calls ++ [S3Call.deleteObject it.s3_key] }) ∧
    (get_image ctx2
        { table := deleteItem st.table id,
          calls := st.calls ++ [S3Call.deleteObject it.s3_key] } id).1
      = .resp (response 404 (.obj [("message", .str "Image not found")])) := by
  constructor
  · simp [delete_image, h]
  · simp [get_image, getItem_deleteItem]

theorem delete_then_get_404_witness :
    getItem stW.table "i1" = some itW ∧
    (delete_image ctxW stW "i1" =
      (.resp (response 200
        (.obj [("message", .str "Deleted"), ("image_id", .str "i1")])),
       { table := deleteItem stW.table "i1",
         calls := stW.calls ++ [S3Call.deleteObject itW.s3_key] }) ∧
     (get_image ctxW
        { table := deleteItem stW.table "i1",
          calls := stW.calls ++ [S3Call.deleteObject itW.s3_key] } "i1").1
      = .resp (response 404 (.obj [("message", .str "Image not found")]))) :=
  ⟨rfl, delete_then_get_404 ctxW ctxW stW "i1" itW rfl⟩

/-- C6: when the object-store deletion of the record's `s3_key` fails,
the failure is swallowed — the response is still 200 with the
confirmation message and the `image_id`, with no error field — and the
record is still removed from the record store. -/
theorem delete_swallows_object_error (ctx : Ctx) (st : St) (id : String)
    (it : Item) (e : String)
    (h : getItem st.table id = some it)
    (hfail : ctx.deleteObj it.s3_key = .error e) :
    delete_image ctx st id =
      (.resp (response 200
        (.obj [("message", .str "Deleted"), ("image_id", .str id)])),
       { table := deleteItem st.table id,
         calls := st.calls ++ [S3Call.deleteObject it.s3_key] }) := by
  simp [delete_image, h]

theorem delete_swallows_object_error_witness :
    getItem stW.table "i1" = some itW ∧
    ctxDelFail.deleteObj itW.s3_key = .error "AccessDenied" ∧
    delete_image ctxDelFail stW "i1" =
      (.resp (response 200
        (.obj [("message", .str "Deleted"), ("image_id", .str "i1")])),
       { table := deleteItem stW.table "i1",
         calls := stW.calls ++ [S3Call.deleteObject itW.s3_key] }) :=
  ⟨rfl, rfl, delete_swallows_object_error ctxDelFail stW "i1" itW "AccessDenied" rfl rfl⟩

theorem list_bad_ts_returns_400_witness :
    (truthyS (qLookup [(("from_ts" : String), ("abc" : String))] "from_ts") = true
      ∧ pyInt "abc" = none) ∧
    (list_images ctxW stW evBadTs).1 =
      .resp (response 400
        (.obj [("message", .str "from_ts and to_ts must be integers")])) :=
  ⟨⟨rfl, rfl⟩,
    list_bad_ts_returns_400 ctxW stW evBadTs [("from_ts", "abc")] 50
      rfl rfl (by decide) (Or.inl ⟨rfl, rfl⟩)⟩

end ImageService
